import Mathlib

/-!
Shallow embedding of the sketch-squad game-session server
(source: src/server/index.js).  The room data model, the SessionEngine
operations (createRoom, joinRoom, leaveRoom, addMessage, startGame,
endRound with its delayed continuation), the RoundTimer behaviour and the
cleanupRooms reaper sweep are translated into pure Lean functions.
Randomness (drawer pick, word pick) is passed in as oracle parameters,
and wall-clock instants are integer milliseconds.
-/

namespace SketchSquad

/-- Game status strings of the server: waiting, playing, roundEnd, gameEnd. -/
inductive GameStatus where
  | waiting
  | playing
  | roundEnd
  | gameEnd
deriving Repr, DecidableEq

/-- Player record as pushed by joinRoom (src/server/index.js lines 208-213).
Presentation-only fields (avatar) are omitted. -/
structure Player where
  id : String
  name : String
  score : Int
  isDrawing : Bool
  isConnected : Bool
deriving Repr, DecidableEq

/-- Chat message as stored in the room log by addMessage: the user snapshot
is kept as id and name, plus the (possibly redacted) text and the
isCorrect flag set by the evaluator. -/
structure ChatMessage where
  id : String
  userId : String
  userName : String
  text : String
  isCorrect : Bool
deriving Repr, DecidableEq

/-- Room settings used by the server: maxPlayers, roundDuration (seconds),
rounds (total rounds). -/
structure Settings where
  maxPlayers : Nat
  roundDuration : Int
  rounds : Int
deriving Repr, DecidableEq

/-- Room record (src/server/index.js lines 165-179).  createdAt is an
integer timestamp in milliseconds. -/
structure Room where
  id : String
  hostId : String
  settings : Settings
  players : List Player
  messages : List ChatMessage
  currentRound : Int
  totalRounds : Int
  currentWord : String
  drawingPlayerId : Option String
  gameStatus : GameStatus
  roundTimeLeft : Int
  correctGuessers : List String
  createdAt : Int
deriving Repr, DecidableEq

/-- Room state built by createRoom (lines 165-179). -/
def mkRoom (roomId hostId : String) (settings : Settings) (now : Int) : Room :=
  { id := roomId
    hostId := hostId
    settings := settings
    players := []
    messages := []
    currentRound := 0
    totalRounds := settings.rounds
    currentWord := ""
    drawingPlayerId := none
    gameStatus := GameStatus.waiting
    roundTimeLeft := settings.roundDuration
    correctGuessers := []
    createdAt := now }

/-- Leading-whitespace removal on a character list. -/
def dropWhileWS : List Char → List Char
  | [] => []
  | c :: cs => if c.isWhitespace then dropWhileWS cs else c :: cs

/-- Whitespace trimming on both ends of a character list. -/
def trimChars (l : List Char) : List Char :=
  ((dropWhileWS (dropWhileWS l).reverse)).reverse

/-- Normalisation applied to a guess and to the current word in addMessage
(line 265): text.toLowerCase().trim(), expressed structurally on the
character list so that it evaluates on concrete strings. -/
def normGuess (s : String) : String :=
  String.mk (trimChars (s.data.map Char.toLower))

/-- Fixed redaction marker stored for a first correct guess (line 281). -/
def correctMarker : String := "🎯 Guessed the word!"

/-- Marker stored for a repeated correct guess (line 284). -/
def alreadyGuessedMarker : String := "Already guessed"

/-- Incoming chat message payload (before evaluation). -/
structure MsgIn where
  id : String
  userId : String
  userName : String
  text : String
deriving Repr, DecidableEq

/-- Score update of addMessage lines 275-278: findIndex locates the first
player with the author id and, when found, adds the delta to that player
only.  A missing author leaves the list unchanged. -/
def addScoreFirst : List Player → String → Int → List Player
  | [], _, _ => []
  | p :: ps, uid, delta =>
    if p.id = uid then { p with score := p.score + delta } :: ps
    else p :: addScoreFirst ps uid delta

/-- addMessage (src/server/index.js lines 248-295), for an existing room:
evaluates the guess, applies any scoring mutation, appends the (possibly
redacted) message to the log and returns the updated room together with
the isCorrect flag of the result. -/
def addMessage (room : Room) (msg : MsgIn) : Room × Bool :=
  if room.gameStatus = GameStatus.playing ∧
     some msg.userId ≠ room.drawingPlayerId ∧
     normGuess msg.text = normGuess room.currentWord then
    if msg.userId ∈ room.correctGuessers then
      ({ room with
          messages := room.messages ++
            [{ id := msg.id, userId := msg.userId, userName := msg.userName,
               text := alreadyGuessedMarker, isCorrect := false }] }, false)
    else
      ({ room with
          correctGuessers := room.correctGuessers ++ [msg.userId]
          players := addScoreFirst room.players msg.userId 100
          messages := room.messages ++
            [{ id := msg.id, userId := msg.userId, userName := msg.userName,
               text := correctMarker, isCorrect := true }] }, true)
  else
    ({ room with
        messages := room.messages ++
          [{ id := msg.id, userId := msg.userId, userName := msg.userName,
             text := msg.text, isCorrect := false }] }, false)

/-- Score of the player the server would find for a given id (JS findIndex:
first player whose id matches), if any. -/
def scoreOf (room : Room) (uid : String) : Option Int :=
  (room.players.find? (fun p => p.id = uid)).map (fun p => p.score)

/-- Incoming player payload of joinRoom: id and name (avatar omitted). -/
structure JoinInfo where
  id : String
  name : String
deriving Repr, DecidableEq

/-- Update of an existing player on rejoin (lines 196-201): the first player
with the matching id is merged with the incoming payload and marked
connected; score and isDrawing are preserved. -/
def rejoinFirst : List Player → JoinInfo → List Player
  | [], _ => []
  | p :: ps, pl =>
    if p.id = pl.id then { p with name := pl.name, isConnected := true } :: ps
    else p :: rejoinFirst ps pl

/-- joinRoom (lines 185-218) for an existing room: rejoin updates the
existing entry, otherwise the room-full check gates appending a fresh
player with score 0, isDrawing false, isConnected true. -/
def joinRoom (room : Room) (pl : JoinInfo) : Except String Room :=
  if room.players.any (fun p => p.id = pl.id) then
    Except.ok { room with players := rejoinFirst room.players pl }
  else if room.settings.maxPlayers ≤ room.players.length then
    Except.error "Room is full"
  else
    Except.ok { room with players := room.players ++
      [{ id := pl.id, name := pl.name, score := 0,
         isDrawing := false, isConnected := true }] }

/-- Disconnect step of leaveRoom (line 230): the first player with the
matching id is marked disconnected. -/
def disconnectFirst : List Player → String → List Player
  | [], _ => []
  | p :: ps, pid =>
    if p.id = pid then { p with isConnected := false } :: ps
    else p :: disconnectFirst ps pid

/-- Fallback player used to totalise list indexing; every use is guarded by
an emptiness or bound check, so it is never actually selected. -/
def dummyPlayer : Player :=
  { id := "", name := "", score := 0, isDrawing := false, isConnected := false }

/-- leaveRoom (lines 220-246) for an existing room: marks the player
disconnected; deletes the room (result ok none) when nobody remains
connected; reassigns the host to the first connected player
(connectedPlayers[0]) when the host left. -/
def leaveRoom (room : Room) (pid : String) : Except String (Option Room) :=
  if room.players.any (fun p => p.id = pid) then
    if ((disconnectFirst room.players pid).filter
        (fun p => p.isConnected)).length = 0 then
      Except.ok none
    else if pid = room.hostId then
      Except.ok (some { room with
        players := disconnectFirst room.players pid
        hostId := (((disconnectFirst room.players pid).filter
          (fun p => p.isConnected)).headD dummyPlayer).id })
    else
      Except.ok (some { room with
        players := disconnectFirst room.players pid })
  else
    Except.error "Player not found in room"

/-- Drawer chosen by startGame: the random pick
Math.floor(Math.random() * connectedPlayers.length) is modelled by the
oracle parameter k reduced modulo the number of connected players, which
covers exactly the indices the source can draw. -/
def pickDrawerId (ps : List Player) (k : Nat) : String :=
  ((ps.filter (fun p => p.isConnected)).getD
    (k % (ps.filter (fun p => p.isConnected)).length) dummyPlayer).id

/-- startGame (lines 297-339) for an existing room, with the random drawer
pick and random word passed as oracle parameters k and w.  Fails when
fewer than two players are connected; otherwise resets the game for
round 1 with the picked drawer and word. -/
def startGame (room : Room) (k : Nat) (w : String) : Except String Room :=
  if (room.players.filter (fun p => p.isConnected)).length < 2 then
    Except.error "Need at least 2 players to start"
  else
    Except.ok { room with
      gameStatus := GameStatus.playing
      currentRound := 1
      currentWord := w
      drawingPlayerId := some (pickDrawerId room.players k)
      roundTimeLeft := room.settings.roundDuration
      correctGuessers := []
      players := room.players.map (fun p =>
        { p with isDrawing := p.id = pickDrawerId room.players k,
                 score := 0 }) }

/-- Immediate part of endRound (lines 386-400): only a playing room can end
its round; the status moves to roundEnd and the continuation is
scheduled. -/
def endRoundBegin (room : Room) : Except String Room :=
  if room.gameStatus = GameStatus.playing then
    Except.ok { room with gameStatus := GameStatus.roundEnd }
  else
    Except.error "Game is not in progress"

/-- Index of the previous drawer among the connected players, as computed by
findIndex on p.id === drawingPlayerId over connectedPlayers (line 421):
-1 when the drawer is absent. -/
def drawerIdx (conn : List Player) (did : Option String) : Int :=
  match conn.findIdx? (fun p => some p.id = did) with
  | some i => (i : Int)
  | none => -1

/-- Cyclic rotation of the drawer (lines 420-423): the index of the previous
drawer among the connected players (or -1) is advanced by one modulo the
number of connected players, and that player's id is the next drawer. -/
def nextDrawerId (ps : List Player) (did : Option String) : String :=
  ((ps.filter (fun p => p.isConnected)).getD
    ((drawerIdx (ps.filter (fun p => p.isConnected)) did + 1) %
      ((ps.filter (fun p => p.isConnected)).length : Int)).toNat
    dummyPlayer).id

/-- Delayed continuation of endRound (lines 403-450), for a room that still
exists, with the random next word passed as the oracle parameter w.
Returns the updated room and whether a new RoundTimer was started. -/
def endRoundFinish (room : Room) (w : String) : Room × Bool :=
  if room.totalRounds ≤ room.currentRound then
    ({ room with gameStatus := GameStatus.gameEnd }, false)
  else if (room.players.filter (fun p => p.isConnected)).length < 2 then
    ({ room with gameStatus := GameStatus.waiting }, false)
  else
    ({ room with
        gameStatus := GameStatus.playing
        currentRound := room.currentRound + 1
        currentWord := w
        drawingPlayerId := some (nextDrawerId room.players room.drawingPlayerId)
        roundTimeLeft := room.settings.roundDuration
        correctGuessers := []
        players := room.players.map (fun p =>
          { p with isDrawing :=
            p.id = nextDrawerId room.players room.drawingPlayerId }) }, true)

/-- One-hour-resolution staleness test of cleanupRooms (lines 120-139):
a room is removed when it has no connected player, or otherwise when
more than six hours (in milliseconds) have passed since its creation. -/
def roomStale (now : Int) (room : Room) : Bool :=
  if (room.players.filter (fun p => p.isConnected)).length = 0 then true
  else if 6 * 60 * 60 * 1000 < now - room.createdAt then true
  else false

/-- cleanupRooms sweep (lines 111-146) over the room store, modelled as an
association list from room id to room: exactly the stale rooms are
deleted. -/
def cleanupRooms (now : Int) (rooms : List (String × Room)) :
    List (String × Room) :=
  rooms.filter (fun r => ¬ roomStale now r.2)

/-!
Single-room trace semantics.  A ServerState tracks one room of the
registry together with the number of live RoundTimer intervals
(setInterval callbacks not yet cleared, lines 352-383) and the number
of pending endRound continuations (line 403 setTimeout callbacks not
yet fired) for that room. -/

/-- Server state for one room id: the room (none when absent or deleted),
the live RoundTimer intervals for it, and the pending delayed endRound
continuations for it. -/
structure ServerState where
  room : Option Room
  liveTimers : Nat
  pendingEnds : Nat
deriving Repr, DecidableEq

/-- Initial state: no room, no timer, no pending continuation. -/
def initState : ServerState :=
  { room := none, liveTimers := 0, pendingEnds := 0 }

/-- Commands and scheduler events affecting one room.  create carries the
generated room id and creation instant; start and finishRound carry the
randomness oracles. -/
inductive Op where
  | create (roomId hostId : String) (settings : Settings) (now : Int)
  | join (pl : JoinInfo)
  | leave (pid : String)
  | message (msg : MsgIn)
  | start (k : Nat) (w : String)
  | tick
  | finishRound (w : String)
deriving Repr, DecidableEq

/-- One step of the server on this room.  Failing commands leave the state
unchanged.  A start that succeeds also invokes startRoundTimer, whose
guard (room exists and is playing, line 346) then holds, so a new live
interval is registered without any previous one being cleared.  A tick
fires one live interval: it self-clears when the room is gone or not
playing (line 355), otherwise decrements roundTimeLeft and, on reaching
zero, self-clears and performs the immediate part of endRound,
scheduling the delayed continuation.  A finishRound fires one pending
continuation (a no-op when the room was deleted, line 405), registering
a new live interval exactly when the continuation starts a next round. -/
def applyOp (s : ServerState) : Op → ServerState
  | Op.create roomId hostId settings now =>
    { s with room := some (mkRoom roomId hostId settings now) }
  | Op.join pl =>
    match s.room with
    | none => s
    | some r =>
      match joinRoom r pl with
      | Except.ok r' => { s with room := some r' }
      | Except.error _ => s
  | Op.leave pid =>
    match s.room with
    | none => s
    | some r =>
      match leaveRoom r pid with
      | Except.ok r' => { s with room := r' }
      | Except.error _ => s
  | Op.message msg =>
    match s.room with
    | none => s
    | some r => { s with room := some (addMessage r msg).1 }
  | Op.start k w =>
    match s.room with
    | none => s
    | some r =>
      match startGame r k w with
      | Except.ok r' =>
        { s with room := some r', liveTimers := s.liveTimers + 1 }
      | Except.error _ => s
  | Op.tick =>
    if s.liveTimers = 0 then s
    else
      match s.room with
      | none => { s with liveTimers := s.liveTimers - 1 }
      | some r =>
        if r.gameStatus = GameStatus.playing then
          let r' := { r with roundTimeLeft := r.roundTimeLeft - 1 }
          if r'.roundTimeLeft ≤ 0 then
            { s with
                room := some { r' with gameStatus := GameStatus.roundEnd }
                liveTimers := s.liveTimers - 1
                pendingEnds := s.pendingEnds + 1 }
          else { s with room := some r' }
        else { s with liveTimers := s.liveTimers - 1 }
  | Op.finishRound w =>
    if s.pendingEnds = 0 then s
    else
      match s.room with
      | none => { s with pendingEnds := s.pendingEnds - 1 }
      | some r =>
        let out := endRoundFinish r w
        { s with
            room := some out.1
            pendingEnds := s.pendingEnds - 1
            liveTimers := s.liveTimers + (if out.2 then 1 else 0) }

/-- Run a list of operations from a given state. -/
def runOps (s : ServerState) (ops : List Op) : ServerState :=
  ops.foldl applyOp s

/-- Number of players of a room currently flagged as drawing. -/
def drawCount (r : Room) : Nat :=
  (r.players.filter (fun p => p.isDrawing)).length

/-- Connected player ids of a room, in join order. -/
def connIds (r : Room) : List String :=
  (r.players.filter (fun p => p.isConnected)).map (fun p => p.id)

/-- Number of connected players of a room. -/
def connCount (r : Room) : Nat :=
  (r.players.filter (fun p => p.isConnected)).length

/-- One full round cycle seen from a playing room: the immediate part of
endRound followed by its delayed continuation (a non-playing room is
rejected by endRound and left unchanged). -/
def roundCycle (r : Room) (w : String) : Room :=
  match endRoundBegin r with
  | Except.ok r1 => (endRoundFinish r1 w).1
  | Except.error _ => r

/-- Iterated round cycles with a fixed oracle word. -/
def cycleN : Nat → Room → String → Room
  | 0, r, _ => r
  | Nat.succ k, r, w => cycleN k (roundCycle r w) w

/-! Concrete fixtures used by the witness and counterexample theorems. -/

/-- Sample settings: up to four players, 60-second rounds, three rounds. -/
def wSettings : Settings := { maxPlayers := 4, roundDuration := 60, rounds := 3 }

/-- Sample room in mid-game: player A is drawing, player B is guessing. -/
def wRoom : Room :=
  { id := "r"
    hostId := "A"
    settings := wSettings
    players :=
      [{ id := "A", name := "alice", score := 0, isDrawing := true,
         isConnected := true },
       { id := "B", name := "bob", score := 0, isDrawing := false,
         isConnected := true }]
    messages := []
    currentRound := 1
    totalRounds := 3
    currentWord := "Apple"
    drawingPlayerId := some "A"
    gameStatus := GameStatus.playing
    roundTimeLeft := 60
    correctGuessers := []
    createdAt := 0 }

/-- Sample correct guess sent by player B (matches after lower-casing and
trimming). -/
def wMsgB : MsgIn := { id := "m1", userId := "B", userName := "bob", text := " apple " }

/-- Sample guess sent by an id that is not a member of the room. -/
def wMsgC : MsgIn := { id := "m2", userId := "C", userName := "eve", text := "APPLE" }

/-- Sample room in which player B has already guessed correctly. -/
def wRoomB : Room := { wRoom with correctGuessers := ["B"] }

/-- Sample waiting room containing only its connected host A. -/
def wRoomSolo : Room :=
  { mkRoom "r" "A" wSettings 0 with
      players := [{ id := "A", name := "alice", score := 0,
                    isDrawing := false, isConnected := true }] }

/-- Server state holding wRoomSolo with no timer and no pending
continuation. -/
def wStateSolo : ServerState :=
  { room := some wRoomSolo, liveTimers := 0, pendingEnds := 0 }

/-- Sample playing room whose recorded drawer id Z belongs to no connected
player (the drawer left and rejoin never happened). -/
def wRoomNoDrawer : Room := { wRoom with drawingPlayerId := some "Z" }

/-- Command trace: create a room, let A and B join, and start the game with
drawer oracle 0 (player A) and word oracle apple. -/
def wOpsStart : List Op :=
  [Op.create "r" "A" wSettings 0,
   Op.join { id := "A", name := "alice" },
   Op.join { id := "B", name := "bob" },
   Op.start 0 "apple"]

/-- Command trace extending wOpsStart: the current drawer A then leaves the
room while the game is playing. -/
def wOpsDrawerLeaves : List Op := wOpsStart ++ [Op.leave "A"]

/-- The room state reached by wOpsStart. -/
def wRoomStarted : Room :=
  { id := "r"
    hostId := "A"
    settings := wSettings
    players :=
      [{ id := "A", name := "alice", score := 0, isDrawing := true,
         isConnected := true },
       { id := "B", name := "bob", score := 0, isDrawing := false,
         isConnected := true }]
    messages := []
    currentRound := 1
    totalRounds := 3
    currentWord := "apple"
    drawingPlayerId := some "A"
    gameStatus := GameStatus.playing
    roundTimeLeft := 60
    correctGuessers := []
    createdAt := 0 }

/-! Helper lemmas about the score-update step. -/

/-- The first player matching the author id after addScoreFirst is the first
matching player before, with the delta added to its score. -/
theorem find?_addScoreFirst_self (ps : List Player) (uid : String) (d : Int) :
    (addScoreFirst ps uid d).find? (fun p => p.id = uid) =
      (ps.find? (fun p => p.id = uid)).map
        (fun p => { p with score := p.score + d }) := by
  induction ps with
  | nil => rfl
  | cons p ps ih =>
    by_cases h : p.id = uid
    · simp [addScoreFirst, h, List.find?_cons]
    · simp [addScoreFirst, h, List.find?_cons, ih]

/-- addScoreFirst leaves the list unchanged when no player has the author
id. -/
theorem addScoreFirst_of_not_mem (ps : List Player) (uid : String) (d : Int)
    (h : ∀ p ∈ ps, p.id ≠ uid) : addScoreFirst ps uid d = ps := by
  induction ps with
  | nil => rfl
  | cons p ps ih =>
    have hp : p.id ≠ uid := h p (by simp)
    simp [addScoreFirst, hp]
    exact ih (fun q hq => h q (by simp [hq]))

/-- CLAIM C1: in a playing room, a matching guess from a non-drawing author
who has not yet scored this round returns success with isCorrect true,
adds the author to correctGuessers, raises the author's score by exactly
100, and appends the message redacted to the fixed correctness marker. -/
theorem C1_correct_guess_scores (room : Room) (msg : MsgIn) (s : Int)
    (hplay : room.gameStatus = GameStatus.playing)
    (hnd : some msg.userId ≠ room.drawingPlayerId)
    (hng : msg.userId ∉ room.correctGuessers)
    (hmatch : normGuess msg.text = normGuess room.currentWord)
    (hscore : scoreOf room msg.userId = some s) :
    (addMessage room msg).2 = true ∧
    scoreOf (addMessage room msg).1 msg.userId = some (s + 100) ∧
    (addMessage room msg).1.correctGuessers =
      room.correctGuessers ++ [msg.userId] ∧
    (addMessage room msg).1.messages = room.messages ++
      [{ id := msg.id, userId := msg.userId, userName := msg.userName,
         text := correctMarker, isCorrect := true }] := by
  unfold addMessage
  rw [if_pos ⟨hplay, hnd, hmatch⟩, if_neg hng]
  refine ⟨rfl, ?_, rfl, rfl⟩
  unfold scoreOf at hscore ⊢
  simp only [find?_addScoreFirst_self]
  cases hfind : room.players.find? (fun p => p.id = msg.userId) with
  | none => rw [hfind] at hscore; simp at hscore
  | some p =>
    rw [hfind] at hscore
    simp at hscore
    simp [hscore]

/-- CLAIM C1 witness: the property at the sample playing room and the sample
matching guess from player B. -/
theorem C1_witness :
    (addMessage wRoom wMsgB).2 = true ∧
    scoreOf (addMessage wRoom wMsgB).1 wMsgB.userId = some (0 + 100) ∧
    (addMessage wRoom wMsgB).1.correctGuessers =
      wRoom.correctGuessers ++ [wMsgB.userId] ∧
    (addMessage wRoom wMsgB).1.messages = wRoom.messages ++
      [{ id := wMsgB.id, userId := wMsgB.userId, userName := wMsgB.userName,
         text := correctMarker, isCorrect := true }] :=
  C1_correct_guess_scores wRoom wMsgB 0 rfl (by decide) (by decide)
    (by decide) (by decide)

/-- CLAIM C7: in a playing room, a matching guess from a non-drawing author
who already guessed this round is still appended to the log, with its
text replaced by the already-guessed marker and isCorrect false, while
players (hence every score) and correctGuessers are unchanged. -/
theorem C7_repeat_guess_no_score (room : Room) (msg : MsgIn)
    (hplay : room.gameStatus = GameStatus.playing)
    (hnd : some msg.userId ≠ room.drawingPlayerId)
    (hmatch : normGuess msg.text = normGuess room.currentWord)
    (hg : msg.userId ∈ room.correctGuessers) :
    (addMessage room msg).2 = false ∧
    (addMessage room msg).1.players = room.players ∧
    (addMessage room msg).1.correctGuessers = room.correctGuessers ∧
    (addMessage room msg).1.messages = room.messages ++
      [{ id := msg.id, userId := msg.userId, userName := msg.userName,
         text := alreadyGuessedMarker, isCorrect := false }] := by
  unfold addMessage
  rw [if_pos ⟨hplay, hnd, hmatch⟩, if_pos hg]
  exact ⟨rfl, rfl, rfl, rfl⟩

/-- CLAIM C7 witness: the property at the sample room after player B has
already guessed, on a second matching guess by B. -/
theorem C7_witness :
    (addMessage wRoomB wMsgB).2 = false ∧
    (addMessage wRoomB wMsgB).1.players = wRoomB.players ∧
    (addMessage wRoomB wMsgB).1.correctGuessers = wRoomB.correctGuessers ∧
    (addMessage wRoomB wMsgB).1.messages = wRoomB.messages ++
      [{ id := wMsgB.id, userId := wMsgB.userId, userName := wMsgB.userName,
         text := alreadyGuessedMarker, isCorrect := false }] :=
  C7_repeat_guess_no_score wRoomB wMsgB rfl (by decide) (by decide) (by decide)

/-- CLAIM C9: in a playing room, a matching guess whose author id belongs to
no player at all still succeeds with isCorrect true, adds the author id
to correctGuessers and appends the redacted message, while the player
list (hence every score) is unchanged. -/
theorem C9_nonmember_guess_scores_nobody (room : Room) (msg : MsgIn)
    (hplay : room.gameStatus = GameStatus.playing)
    (hnd : some msg.userId ≠ room.drawingPlayerId)
    (hng : msg.userId ∉ room.correctGuessers)
    (hmatch : normGuess msg.text = normGuess room.currentWord)
    (habs : ∀ p ∈ room.players, p.id ≠ msg.userId) :
    (addMessage room msg).2 = true ∧
    (addMessage room msg).1.correctGuessers =
      room.correctGuessers ++ [msg.userId] ∧
    (addMessage room msg).1.players = room.players ∧
    (addMessage room msg).1.messages = room.messages ++
      [{ id := msg.id, userId := msg.userId, userName := msg.userName,
         text := correctMarker, isCorrect := true }] := by
  unfold addMessage
  rw [if_pos ⟨hplay, hnd, hmatch⟩, if_neg hng]
  exact ⟨rfl, rfl, addScoreFirst_of_not_mem room.players msg.userId 100 habs, rfl⟩

/-- CLAIM C9 witness: the property at the sample room on a matching guess
from the non-member id C. -/
theorem C9_witness :
    (addMessage wRoom wMsgC).2 = true ∧
    (addMessage wRoom wMsgC).1.correctGuessers =
      wRoom.correctGuessers ++ [wMsgC.userId] ∧
    (addMessage wRoom wMsgC).1.players = wRoom.players ∧
    (addMessage wRoom wMsgC).1.messages = wRoom.messages ++
      [{ id := wMsgC.id, userId := wMsgC.userId, userName := wMsgC.userName,
         text := correctMarker, isCorrect := true }] :=
  C9_nonmember_guess_scores_nobody wRoom wMsgC rfl (by decide) (by decide)
    (by decide) (by decide)

/-- CLAIM C4: startGame on a room with fewer than two connected players
fails with the insufficient-players error, and the whole server state
(the room included) is unchanged by the command. -/
theorem C4_insufficient_players (s : ServerState) (r : Room) (k : Nat)
    (w : String) (hr : s.room = some r)
    (hlt : (r.players.filter (fun p => p.isConnected)).length < 2) :
    startGame r k w = Except.error "Need at least 2 players to start" ∧
    applyOp s (Op.start k w) = s := by
  have h1 : startGame r k w =
      Except.error "Need at least 2 players to start" := by
    unfold startGame
    rw [if_pos hlt]
  refine ⟨h1, ?_⟩
  simp [applyOp, hr, h1]

/-- CLAIM C4 witness: the property at a fresh waiting room containing only
its host. -/
theorem C4_witness :
    startGame wRoomSolo 0 "apple" =
      Except.error "Need at least 2 players to start" ∧
    applyOp wStateSolo (Op.start 0 "apple") = wStateSolo :=
  C4_insufficient_players wStateSolo wRoomSolo 0 "apple" rfl (by decide)

/-- CLAIM C8: a cleanupRooms sweep keeps exactly the entries of the store
that have at least one connected player and are at most six hours old;
every other entry is deleted. -/
theorem C8_reaper_exact (now : Int) (rooms : List (String × Room)) :
    ∀ entry : String × Room,
      entry ∈ cleanupRooms now rooms ↔
        entry ∈ rooms ∧
        (entry.2.players.filter (fun p => p.isConnected)).length ≠ 0 ∧
        now - entry.2.createdAt ≤ 6 * 60 * 60 * 1000 := by
  intro entry
  have hmem : entry ∈ cleanupRooms now rooms ↔
      entry ∈ rooms ∧ roomStale now entry.2 = false := by
    simp [cleanupRooms, List.mem_filter]
  rw [hmem]
  unfold roomStale
  constructor
  · rintro ⟨h, hs⟩
    refine ⟨h, ?_, ?_⟩ <;> (split_ifs at hs <;> omega)
  · rintro ⟨h, h1, h2⟩
    refine ⟨h, ?_⟩
    split_ifs with hx hy
    · omega
    · omega
    · rfl

/-- CLAIM C6: the delayed continuation of endRound ends the game when the
round quota is reached, falls back to waiting when fewer than two
players remain connected, and otherwise advances to the next round with
the new word, reset clock and cleared guessers, starting a new timer. -/
theorem C6_round_continuation (r : Room) (w : String)
    (hrt : r.totalRounds = r.settings.rounds) :
    (r.settings.rounds ≤ r.currentRound →
      endRoundFinish r w = ({ r with gameStatus := GameStatus.gameEnd }, false)) ∧
    (r.currentRound < r.settings.rounds →
      (r.players.filter (fun p => p.isConnected)).length < 2 →
      endRoundFinish r w = ({ r with gameStatus := GameStatus.waiting }, false)) ∧
    (r.currentRound < r.settings.rounds →
      2 ≤ (r.players.filter (fun p => p.isConnected)).length →
      ∃ nid, endRoundFinish r w =
        ({ r with
            gameStatus := GameStatus.playing
            currentRound := r.currentRound + 1
            currentWord := w
            drawingPlayerId := some nid
            roundTimeLeft := r.settings.roundDuration
            correctGuessers := []
            players := r.players.map (fun p =>
              { p with isDrawing := p.id = nid }) }, true)) := by
  refine ⟨?_, ?_, ?_⟩
  · intro hq
    unfold endRoundFinish
    rw [if_pos (by omega)]
  · intro hq hc
    unfold endRoundFinish
    rw [if_neg (by omega), if_pos hc]
  · intro hq hc
    unfold endRoundFinish
    rw [if_neg (by omega), if_neg (by omega)]
    exact ⟨_, rfl⟩

/-- CLAIM C6 witness: the continuation case analysis at the sample playing
room. -/
theorem C6_witness :
    (wRoom.settings.rounds ≤ wRoom.currentRound →
      endRoundFinish wRoom "pear" =
        ({ wRoom with gameStatus := GameStatus.gameEnd }, false)) ∧
    (wRoom.currentRound < wRoom.settings.rounds →
      (wRoom.players.filter (fun p => p.isConnected)).length < 2 →
      endRoundFinish wRoom "pear" =
        ({ wRoom with gameStatus := GameStatus.waiting }, false)) ∧
    (wRoom.currentRound < wRoom.settings.rounds →
      2 ≤ (wRoom.players.filter (fun p => p.isConnected)).length →
      ∃ nid, endRoundFinish wRoom "pear" =
        ({ wRoom with
            gameStatus := GameStatus.playing
            currentRound := wRoom.currentRound + 1
            currentWord := "pear"
            drawingPlayerId := some nid
            roundTimeLeft := wRoom.settings.roundDuration
            correctGuessers := []
            players := wRoom.players.map (fun p =>
              { p with isDrawing := p.id = nid }) }, true)) :=
  C6_round_continuation wRoom "pear" rfl

/-- CLAIM C10: in the round-advance branch, when the recorded drawer id
matches no connected player, findIndex yields -1, the next index is 0,
and the first connected player in join order becomes the drawer. -/
theorem C10_absent_drawer_next_is_first (r : Room) (w : String) (c : Player)
    (rest : List Player)
    (hconn : r.players.filter (fun p => p.isConnected) = c :: rest)
    (hR : r.currentRound < r.totalRounds)
    (hlen : 2 ≤ (c :: rest).length)
    (habs : ∀ p ∈ r.players.filter (fun p => p.isConnected),
      some p.id ≠ r.drawingPlayerId) :
    (endRoundFinish r w).1.drawingPlayerId = some c.id ∧
    (endRoundFinish r w).2 = true := by
  have hidx : drawerIdx (c :: rest) r.drawingPlayerId = -1 := by
    unfold drawerIdx
    have hnone : (c :: rest).findIdx?
        (fun p => some p.id = r.drawingPlayerId) = none := by
      rw [List.findIdx?_eq_none_iff]
      intro x hx
      have := habs x (hconn ▸ hx)
      simpa using this
    rw [hnone]
  have hnext : nextDrawerId r.players r.drawingPlayerId = c.id := by
    unfold nextDrawerId
    rw [hconn, hidx]
    norm_num
  unfold endRoundFinish
  rw [if_neg (by omega), if_neg (by rw [hconn]; omega)]
  simp [hnext]

/-- CLAIM C10 witness: the next-round drawer choice at the sample room whose
recorded drawer is absent falls back to the first connected player A. -/
theorem C10_witness :
    (endRoundFinish wRoomNoDrawer "pear").1.drawingPlayerId =
      some ({ id := "A", name := "alice", score := 0, isDrawing := true,
              isConnected := true } : Player).id ∧
    (endRoundFinish wRoomNoDrawer "pear").2 = true :=
  C10_absent_drawer_next_is_first wRoomNoDrawer "pear"
    { id := "A", name := "alice", score := 0, isDrawing := true,
      isConnected := true }
    [{ id := "B", name := "bob", score := 0, isDrawing := false,
       isConnected := true }]
    (by decide) (by decide) (by decide) (by decide)

/-! Well-formedness invariant of reachable rooms: pairwise distinct player
ids and at most one player flagged as drawing. -/

/-- Player-list well-formedness: ids are pairwise distinct and at most one
entry is flagged as drawing. -/
def PlayersWF (ps : List Player) : Prop :=
  (ps.map (fun p => p.id)).Nodup ∧
  (ps.filter (fun p => p.isDrawing)).length ≤ 1

/-- Well-formedness of a server state: its room, when present, has a
well-formed player list. -/
def StateWF (s : ServerState) : Prop :=
  ∀ r, s.room = some r → PlayersWF r.players

/-- A transformation that changes neither ids nor drawing flags preserves
player-list well-formedness. -/
theorem PlayersWF_congr (ps qs : List Player)
    (hid : qs.map (fun p => p.id) = ps.map (fun p => p.id))
    (hdr : qs.map (fun p => p.isDrawing) = ps.map (fun p => p.isDrawing))
    (h : PlayersWF ps) : PlayersWF qs := by
  refine ⟨hid ▸ h.1, ?_⟩
  have hq : (qs.filter (fun p => p.isDrawing)).length =
      List.countP (fun b => b) (qs.map (fun p => p.isDrawing)) := by
    rw [List.countP_map, ← List.countP_eq_length_filter]
    rfl
  have hp : (ps.filter (fun p => p.isDrawing)).length =
      List.countP (fun b => b) (ps.map (fun p => p.isDrawing)) := by
    rw [List.countP_map, ← List.countP_eq_length_filter]
    rfl
  rw [hq, hdr, ← hp]
  exact h.2

/-- rejoinFirst changes neither ids nor drawing flags. -/
theorem rejoinFirst_pres (ps : List Player) (pl : JoinInfo) :
    (rejoinFirst ps pl).map (fun p => p.id) = ps.map (fun p => p.id) ∧
    (rejoinFirst ps pl).map (fun p => p.isDrawing) =
      ps.map (fun p => p.isDrawing) := by
  induction ps with
  | nil => exact ⟨rfl, rfl⟩
  | cons p ps ih =>
    by_cases h : p.id = pl.id
    · simp [rejoinFirst, h]
    · simp [rejoinFirst, h, ih.1, ih.2]

/-- disconnectFirst changes neither ids nor drawing flags. -/
theorem disconnectFirst_pres (ps : List Player) (pid : String) :
    (disconnectFirst ps pid).map (fun p => p.id) = ps.map (fun p => p.id) ∧
    (disconnectFirst ps pid).map (fun p => p.isDrawing) =
      ps.map (fun p => p.isDrawing) := by
  induction ps with
  | nil => exact ⟨rfl, rfl⟩
  | cons p ps ih =>
    by_cases h : p.id = pid
    · simp [disconnectFirst, h]
    · simp [disconnectFirst, h, ih.1, ih.2]

/-- addScoreFirst changes neither ids nor drawing flags. -/
theorem addScoreFirst_pres (ps : List Player) (uid : String) (d : Int) :
    (addScoreFirst ps uid d).map (fun p => p.id) = ps.map (fun p => p.id) ∧
    (addScoreFirst ps uid d).map (fun p => p.isDrawing) =
      ps.map (fun p => p.isDrawing) := by
  induction ps with
  | nil => exact ⟨rfl, rfl⟩
  | cons p ps ih =>
    by_cases h : p.id = uid
    · simp [addScoreFirst, h]
    · simp [addScoreFirst, h, ih.1, ih.2]

/-- In a list with pairwise distinct ids, at most one player carries any
given id. -/
theorem countP_id_le_one (ps : List Player) (x : String)
    (hnd : (ps.map (fun p => p.id)).Nodup) :
    List.countP (fun p => p.id = x) ps ≤ 1 := by
  induction ps with
  | nil => simp
  | cons p ps ih =>
    simp only [List.map_cons, List.nodup_cons] at hnd
    rw [List.countP_cons]
    by_cases h : p.id = x
    · have hzero : List.countP (fun p => p.id = x) ps = 0 := by
        rw [List.countP_eq_zero]
        intro q hq
        simp only [decide_eq_true_eq]
        intro hqx
        exact hnd.1 (List.mem_map.mpr ⟨q, hq, hqx.trans h.symm⟩)
      simp [h, hzero]
    · simpa [h] using ih hnd.2

/-- Reassigning the drawer flag by comparing ids against one target id
yields a well-formed list, whatever else the map rewrites, as long as
ids are kept and were pairwise distinct. -/
theorem PlayersWF_assign (ps : List Player) (x : String) (f : Player → Player)
    (hid : ∀ p, (f p).id = p.id)
    (hdr : ∀ p, (f p).isDrawing = decide (p.id = x))
    (hnd : (ps.map (fun p => p.id)).Nodup) :
    PlayersWF (ps.map f) := by
  constructor
  · rw [List.map_map]
    have : (fun p => p.id) ∘ f = fun p => p.id := funext fun p => hid p
    rw [show ((fun p : Player => p.id) ∘ f) = (fun p : Player => p.id) from
      funext fun p => hid p]
    exact hnd
  · rw [← List.countP_eq_length_filter, List.countP_map]
    have : List.countP ((fun p : Player => p.isDrawing) ∘ f) ps =
        List.countP (fun p : Player => p.id = x) ps := by
      apply List.countP_congr
      intro p _
      simp [Function.comp, hdr p]
    rw [this]
    exact countP_id_le_one ps x hnd

/-- joinRoom preserves player-list well-formedness. -/
theorem joinRoom_WF (r : Room) (pl : JoinInfo) (r' : Room)
    (h : PlayersWF r.players) (hok : joinRoom r pl = Except.ok r') :
    PlayersWF r'.players := by
  unfold joinRoom at hok
  by_cases hmem : r.players.any (fun p => p.id = pl.id)
  · rw [if_pos hmem] at hok
    cases hok
    exact PlayersWF_congr r.players _ (rejoinFirst_pres r.players pl).1
      (rejoinFirst_pres r.players pl).2 h
  · rw [if_neg hmem] at hok
    by_cases hfull : r.settings.maxPlayers ≤ r.players.length
    · rw [if_pos hfull] at hok
      cases hok
    · rw [if_neg hfull] at hok
      cases hok
      constructor
      · rw [List.map_append]
        rw [List.nodup_append]
        refine ⟨h.1, by simp, ?_⟩
        intro a ha hb
        simp only [List.map_cons, List.map_nil, List.mem_cons,
          List.not_mem_nil, or_false] at hb
        subst hb
        rw [List.any_eq_true] at hmem
        rw [List.mem_map] at ha
        obtain ⟨q, hq, hqid⟩ := ha
        exact hmem ⟨q, hq, by simp [hqid]⟩
      · rw [List.filter_append]
        simpa using h.2

/-- leaveRoom preserves player-list well-formedness of a surviving room. -/
theorem leaveRoom_WF (r : Room) (pid : String) (r' : Room)
    (h : PlayersWF r.players)
    (hok : leaveRoom r pid = Except.ok (some r')) :
    PlayersWF r'.players := by
  unfold leaveRoom at hok
  have hpres := disconnectFirst_pres r.players pid
  split_ifs at hok with h1 h2 h3
  · simp at hok
  · simp only [Except.ok.injEq, Option.some.injEq] at hok
    subst hok
    exact PlayersWF_congr r.players _ hpres.1 hpres.2 h
  · simp only [Except.ok.injEq, Option.some.injEq] at hok
    subst hok
    exact PlayersWF_congr r.players _ hpres.1 hpres.2 h

/-- addMessage preserves player-list well-formedness. -/
theorem addMessage_WF (r : Room) (msg : MsgIn)
    (h : PlayersWF r.players) : PlayersWF (addMessage r msg).1.players := by
  unfold addMessage
  split_ifs with h1 h2
  · exact h
  · exact PlayersWF_congr r.players _
      (addScoreFirst_pres r.players msg.userId 100).1
      (addScoreFirst_pres r.players msg.userId 100).2 h
  · exact h

/-- startGame yields a room with a well-formed player list. -/
theorem startGame_WF (r : Room) (k : Nat) (w : String) (r' : Room)
    (h : PlayersWF r.players) (hok : startGame r k w = Except.ok r') :
    PlayersWF r'.players := by
  unfold startGame at hok
  by_cases hlt : (r.players.filter (fun p => p.isConnected)).length < 2
  · rw [if_pos hlt] at hok
    cases hok
  · rw [if_neg hlt] at hok
    cases hok
    exact PlayersWF_assign r.players _ _
      (fun p => rfl) (fun p => rfl) h.1

/-- The immediate part of endRound preserves player-list
well-formedness. -/
theorem endRoundBegin_WF (r : Room) (r' : Room)
    (h : PlayersWF r.players) (hok : endRoundBegin r = Except.ok r') :
    PlayersWF r'.players := by
  unfold endRoundBegin at hok
  by_cases hp : r.gameStatus = GameStatus.playing
  · rw [if_pos hp] at hok
    cases hok
    exact h
  · rw [if_neg hp] at hok
    cases hok

/-- The delayed continuation of endRound preserves player-list
well-formedness. -/
theorem endRoundFinish_WF (r : Room) (w : String)
    (h : PlayersWF r.players) : PlayersWF (endRoundFinish r w).1.players := by
  unfold endRoundFinish
  split_ifs with h1 h2
  · exact h
  · exact h
  · exact PlayersWF_assign r.players
      (nextDrawerId r.players r.drawingPlayerId) _
      (fun p => rfl) (fun p => rfl) h.1

/-- Every server step preserves state well-formedness. -/
theorem applyOp_WF (s : ServerState) (op : Op) (h : StateWF s) :
    StateWF (applyOp s op) := by
  cases op with
  | create roomId hostId settings now =>
    intro r hr
    have hr' : some (mkRoom roomId hostId settings now) = some r := hr
    cases hr'
    exact ⟨List.nodup_nil, by simp [mkRoom]⟩
  | join pl =>
    intro r hr
    simp only [applyOp] at hr
    cases hs : s.room with
    | none =>
      rw [hs] at hr
      exact h r hr
    | some r0 =>
      rw [hs] at hr
      have hr2 : (match joinRoom r0 pl with
        | Except.ok r' => { s with room := some r' }
        | Except.error _ => s).room = some r := hr
      cases hok : joinRoom r0 pl with
      | ok r1 =>
        rw [hok] at hr2
        have hr' : r1 = r := Option.some.inj hr2
        rw [← hr']
        exact joinRoom_WF r0 pl r1 (h r0 hs) hok
      | error e =>
        rw [hok] at hr2
        exact h r hr2
  | leave pid =>
    intro r hr
    simp only [applyOp] at hr
    cases hs : s.room with
    | none =>
      rw [hs] at hr
      exact h r hr
    | some r0 =>
      rw [hs] at hr
      have hr2 : (match leaveRoom r0 pid with
        | Except.ok r' => { s with room := r' }
        | Except.error _ => s).room = some r := hr
      cases hok : leaveRoom r0 pid with
      | ok or1 =>
        rw [hok] at hr2
        cases or1 with
        | none =>
          have hr' : (none : Option Room) = some r := hr2
          cases hr'
        | some r1 =>
          have hr' : r1 = r := Option.some.inj hr2
          rw [← hr']
          exact leaveRoom_WF r0 pid r1 (h r0 hs) hok
      | error e =>
        rw [hok] at hr2
        exact h r hr2
  | message msg =>
    intro r hr
    simp only [applyOp] at hr
    cases hs : s.room with
    | none =>
      rw [hs] at hr
      exact h r hr
    | some r0 =>
      rw [hs] at hr
      have hr' : some (addMessage r0 msg).1 = some r := hr
      cases hr'
      exact addMessage_WF r0 msg (h r0 hs)

  | start k w =>
    intro r hr
    simp only [applyOp] at hr
    cases hs : s.room with
    | none =>
      rw [hs] at hr
      exact h r hr
    | some r0 =>
      rw [hs] at hr
      have hr2 : (match startGame r0 k w with
        | Except.ok r' =>
          { s with room := some r', liveTimers := s.liveTimers + 1 }
        | Except.error _ => s).room = some r := hr
      cases hok : startGame r0 k w with
      | ok r1 =>
        rw [hok] at hr2
        have hr' : r1 = r := Option.some.inj hr2
        rw [← hr']
        exact startGame_WF r0 k w r1 (h r0 hs) hok
      | error e =>
        rw [hok] at hr2
        exact h r hr2
  | tick =>
    intro r hr
    simp only [applyOp] at hr
    by_cases ht : s.liveTimers = 0
    · rw [if_pos ht] at hr
      exact h r hr
    · rw [if_neg ht] at hr
      cases hs : s.room with
      | none =>
        rw [hs] at hr
        have hr' : (none : Option Room) = some r := hr
        cases hr'
      | some r0 =>
        rw [hs] at hr
        have hr2 : (if r0.gameStatus = GameStatus.playing then
            (if r0.roundTimeLeft - 1 ≤ 0 then
              { s with
                  room := some { r0 with
                    roundTimeLeft := r0.roundTimeLeft - 1
                    gameStatus := GameStatus.roundEnd }
                  liveTimers := s.liveTimers - 1
                  pendingEnds := s.pendingEnds + 1 }
            else
              { s with
                  room := some { r0 with
                    roundTimeLeft := r0.roundTimeLeft - 1 } })
          else { room := some r0, liveTimers := s.liveTimers - 1,
                 pendingEnds := s.pendingEnds }).room = some r := hr
        by_cases hp : r0.gameStatus = GameStatus.playing
        · rw [if_pos hp] at hr2
          by_cases hz : r0.roundTimeLeft - 1 ≤ 0
          · rw [if_pos hz] at hr2
            have hr' : { r0 with
                roundTimeLeft := r0.roundTimeLeft - 1
                gameStatus := GameStatus.roundEnd } = r :=
              Option.some.inj hr2
            rw [← hr']
            exact h r0 hs
          · rw [if_neg hz] at hr2
            have hr' : { r0 with
                roundTimeLeft := r0.roundTimeLeft - 1 } = r :=
              Option.some.inj hr2
            rw [← hr']
            exact h r0 hs
        · rw [if_neg hp] at hr2
          have hr' : r0 = r := Option.some.inj hr2
          rw [← hr']
          exact h r0 hs
  | finishRound w =>
    intro r hr
    simp only [applyOp] at hr
    by_cases ht : s.pendingEnds = 0
    · rw [if_pos ht] at hr
      exact h r hr
    · rw [if_neg ht] at hr
      cases hs : s.room with
      | none =>
        rw [hs] at hr
        have hr' : (none : Option Room) = some r := hr
        cases hr'
      | some r0 =>
        rw [hs] at hr
        have hr' : some (endRoundFinish r0 w).1 = some r := hr
        cases hr'
        exact endRoundFinish_WF r0 w (h r0 hs)

/-- Running any operation list from a well-formed state ends well
formed. -/
theorem runOps_WF (ops : List Op) (s : ServerState) (h : StateWF s) :
    StateWF (runOps s ops) := by
  induction ops generalizing s with
  | nil => exact h
  | cons op ops ih => exact ih (applyOp s op) (applyOp_WF s op h)

/-- CLAIM C2 (amended): in every room reachable through the server
operations, at most one player has isDrawing true while the game is
playing; the connectivity half of the original claim fails, see the
counterexample. -/
theorem C2_amended_at_most_one_drawer (ops : List Op) (r : Room)
    (hr : (runOps initState ops).room = some r)
    (hplay : r.gameStatus = GameStatus.playing) :
    drawCount r ≤ 1 := by
  have hwf : StateWF (runOps initState ops) :=
    runOps_WF ops initState (fun r0 h0 => by cases h0)
  exact (hwf r hr).2

/-- CLAIM C2 amended witness: at most one drawer in the room reached by
creating, joining twice and starting the game. -/
theorem C2_witness : drawCount wRoomStarted ≤ 1 :=
  C2_amended_at_most_one_drawer wOpsStart wRoomStarted (by decide) (by decide)

/-- CLAIM C2 counterexample: after create, two joins, startGame and then
leaveRoom by the current drawer A, the room is still playing yet its
drawing player is disconnected, refuting the connectivity half of the
claim (leaveRoom does not preserve it). -/
theorem C2_counterexample :
    ∃ r, (runOps initState wOpsDrawerLeaves).room = some r ∧
      r.gameStatus = GameStatus.playing ∧
      ∃ p ∈ r.players, p.isDrawing = true ∧ p.isConnected = false := by
  decide

/-- CLAIM C3: after create, two joins and a successful startGame exactly one
RoundTimer interval is live; a second startGame call - the server never
checks gameStatus, and startRoundTimer stops nothing - succeeds again
and registers a second interval while the first is still live, so two
once-per-second countdowns run for the same room. -/
theorem C3_double_start_two_timers :
    (runOps initState wOpsStart).liveTimers = 1 ∧
    (runOps initState (wOpsStart ++ [Op.start 0 "apple"])).liveTimers = 2 :=
  ⟨rfl, rfl⟩

/-! Drawer-rotation lemmas for the cyclicity claim. -/

/-- Filtering the connected players commutes with reassigning the drawer
flag, since the reassignment keeps isConnected. -/
theorem connFilter_map_assign (ps : List Player) (x : String) :
    (ps.map (fun p => { p with isDrawing := p.id = x })).filter
      (fun p => p.isConnected) =
    (ps.filter (fun p => p.isConnected)).map
      (fun p => { p with isDrawing := p.id = x }) := by
  rw [List.filter_map]
  rfl

/-- Reassigning the drawer flag keeps the connected-id list. -/
theorem connIds_assign (ps : List Player) (x : String) :
    ((ps.map (fun p => { p with isDrawing := p.id = x })).filter
      (fun p => p.isConnected)).map (fun p => p.id) =
    (ps.filter (fun p => p.isConnected)).map (fun p => p.id) := by
  rw [connFilter_map_assign, List.map_map]
  rfl

/-- With pairwise distinct ids, findIdx? locates the j-th id at index j. -/
theorem findIdx?_id_eq : ∀ (conn : List Player) (j : Nat), j < conn.length →
    (conn.map (fun p => p.id)).Nodup →
    ∀ x : String, (conn.map (fun p => p.id)).getD j "" = x →
    conn.findIdx? (fun p => some p.id = some x) = some j := by
  intro conn
  induction conn with
  | nil =>
    intro j hj _ x _
    exact absurd hj (by simp)
  | cons c cs ih =>
    intro j hj hnd x hx
    cases j with
    | zero =>
      have hcx : c.id = x := hx
      rw [List.findIdx?_cons]
      simp [hcx]
    | succ j =>
      simp only [List.map_cons, List.nodup_cons] at hnd
      have hj' : j < cs.length := by
        simp only [List.length_cons] at hj
        omega
      have hx' : (cs.map (fun p => p.id)).getD j "" = x := hx
      have hxmem : x ∈ cs.map (fun p => p.id) := by
        rw [← hx', List.getD_eq_getElem _ _ (by simpa using hj')]
        exact List.getElem_mem _
      have hcx : ¬ (c.id = x) := fun h => hnd.1 (h ▸ hxmem)
      rw [List.findIdx?_cons, if_neg (by simp [hcx]), List.findIdx?_succ,
        ih j hj' hnd.2 x hx']
      rfl

/-- The rotation of endRound advances the drawer from index j to index
(j+1) modulo the number of connected players. -/
theorem nextDrawerId_rot (ps : List Player) (j : Nat)
    (hj : j < (ps.filter (fun p => p.isConnected)).length)
    (hnd : ((ps.filter (fun p => p.isConnected)).map
      (fun p => p.id)).Nodup) :
    nextDrawerId ps (some (((ps.filter (fun p => p.isConnected)).map
        (fun p => p.id)).getD j "")) =
      ((ps.filter (fun p => p.isConnected)).map (fun p => p.id)).getD
        ((j+1) % (ps.filter (fun p => p.isConnected)).length) "" := by
  have hN : 0 < (ps.filter (fun p => p.isConnected)).length := by omega
  have hidx : drawerIdx (ps.filter (fun p => p.isConnected))
      (some (((ps.filter (fun p => p.isConnected)).map
        (fun p => p.id)).getD j "")) = (j : Int) := by
    unfold drawerIdx
    rw [findIdx?_id_eq _ j hj hnd _ rfl]
  unfold nextDrawerId
  rw [hidx]
  have hcast : (((j : Int) + 1) %
      (((ps.filter (fun p => p.isConnected)).length : Nat) : Int)).toNat =
      (j+1) % (ps.filter (fun p => p.isConnected)).length := by
    have h1 : ((j : Int) + 1) %
        (((ps.filter (fun p => p.isConnected)).length : Nat) : Int) =
        ((((j+1) % (ps.filter (fun p => p.isConnected)).length : Nat)) : Int) := by
      norm_cast
    rw [h1, Int.toNat_natCast]
  rw [hcast]
  have hlt : (j+1) % (ps.filter (fun p => p.isConnected)).length <
      (ps.filter (fun p => p.isConnected)).length := Nat.mod_lt _ hN
  rw [List.getD_eq_getElem _ _ hlt,
    List.getD_eq_getElem _ _ (by simpa using hlt), List.getElem_map]

/-- One full round cycle of a playing room with drawer at index j keeps the
connected-id list, the round quota and the playing status, increments
the round counter, and moves the drawer to index (j+1) modulo the
number of connected players. -/
theorem roundCycle_step (r : Room) (w : String) (j : Nat)
    (hplay : r.gameStatus = GameStatus.playing)
    (hj : j < connCount r)
    (hnd : (connIds r).Nodup)
    (hlen : 2 ≤ connCount r)
    (hR : r.currentRound < r.totalRounds)
    (hdraw : r.drawingPlayerId = some ((connIds r).getD j "")) :
    connIds (roundCycle r w) = connIds r ∧
    (roundCycle r w).gameStatus = GameStatus.playing ∧
    (roundCycle r w).currentRound = r.currentRound + 1 ∧
    (roundCycle r w).totalRounds = r.totalRounds ∧
    (roundCycle r w).drawingPlayerId =
      some ((connIds r).getD ((j+1) % connCount r) "") := by
  have hcyc : roundCycle r w =
      (endRoundFinish { r with gameStatus := GameStatus.roundEnd } w).1 := by
    unfold roundCycle endRoundBegin
    rw [if_pos hplay]
  have hlen' : ¬ ((r.players.filter (fun p => p.isConnected)).length < 2) := by
    unfold connCount at hlen
    omega
  rw [hcyc]
  unfold endRoundFinish
  rw [if_neg (show ¬ (r.totalRounds ≤ r.currentRound) by omega),
    if_neg hlen']
  refine ⟨?_, rfl, rfl, rfl, ?_⟩
  · show ((r.players.map _).filter _).map _ = connIds r
    unfold connIds
    exact connIds_assign r.players _
  · show some (nextDrawerId r.players r.drawingPlayerId) = _
    rw [hdraw]
    unfold connIds
    rw [nextDrawerId_rot r.players j (by unfold connCount at hj; exact hj)
      (by unfold connIds at hnd; exact hnd)]
    unfold connCount
    rfl

/-- Iterating round cycles rotates the drawer index cyclically: after k
cycles it sits at (j+k) modulo the number of connected players. -/
theorem cycleN_drawer : ∀ (k : Nat) (r : Room) (w : String) (j : Nat),
    r.gameStatus = GameStatus.playing →
    j < connCount r →
    (connIds r).Nodup →
    2 ≤ connCount r →
    r.currentRound + (k : Int) ≤ r.totalRounds →
    r.drawingPlayerId = some ((connIds r).getD j "") →
    connIds (cycleN k r w) = connIds r ∧
    (cycleN k r w).drawingPlayerId =
      some ((connIds r).getD ((j + k) % connCount r) "") := by
  intro k
  induction k with
  | zero =>
    intro r w j hplay hj hnd hlen hR hdraw
    refine ⟨rfl, ?_⟩
    rw [Nat.add_zero, Nat.mod_eq_of_lt hj]
    exact hdraw
  | succ k ih =>
    intro r w j hplay hj hnd hlen hR hdraw
    have hR1 : r.currentRound < r.totalRounds := by
      push_cast at hR
      omega
    obtain ⟨hc, hp, hcr, htr, hdr⟩ :=
      roundCycle_step r w j hplay hj hnd hlen hR1 hdraw
    have hcc : connCount (roundCycle r w) = connCount r := by
      have hlm := congrArg List.length hc
      unfold connIds at hlm
      unfold connCount
      simpa using hlm
    have hj1 : (j+1) % connCount r < connCount r := Nat.mod_lt _ (by omega)
    obtain ⟨ihc, ihd⟩ := ih (roundCycle r w) w ((j+1) % connCount r)
      hp (by rw [hcc]; exact hj1) (by rw [hc]; exact hnd)
      (by rw [hcc]; exact hlen)
      (by rw [hcr, htr]; push_cast; push_cast at hR; omega)
      (by rw [hdr, hc])
    constructor
    · calc connIds (cycleN (Nat.succ k) r w)
          = connIds (cycleN k (roundCycle r w) w) := rfl
        _ = connIds (roundCycle r w) := ihc
        _ = connIds r := hc
    · have hstep : cycleN (Nat.succ k) r w = cycleN k (roundCycle r w) w := rfl
      rw [hstep, ihd, hc, hcc]
      have hix : ((j+1) % connCount r + k) % connCount r =
          (j + Nat.succ k) % connCount r := by
        rw [Nat.mod_add_mod]
        congr 1
        omega
      rw [hix]

/-- CLAIM C5: drawer rotation is cyclic over the connected players in join
order: starting from a playing room whose drawer is the j-th connected
player, with pairwise distinct ids, at least two connected players and
enough rounds left, performing one full round cycle per connected
player returns the drawer to the original player. -/
theorem C5_rotation_cyclic (r : Room) (w : String) (j : Nat)
    (hplay : r.gameStatus = GameStatus.playing)
    (hj : j < connCount r)
    (hnd : (connIds r).Nodup)
    (hlen : 2 ≤ connCount r)
    (hrounds : r.currentRound + (connCount r : Int) ≤ r.totalRounds)
    (hdraw : r.drawingPlayerId = some ((connIds r).getD j "")) :
    (cycleN (connCount r) r w).drawingPlayerId = r.drawingPlayerId := by
  obtain ⟨-, hd⟩ :=
    cycleN_drawer (connCount r) r w j hplay hj hnd hlen hrounds hdraw
  rw [hd, hdraw]
  rw [Nat.add_mod_right, Nat.mod_eq_of_lt hj]

/-- CLAIM C5 witness: two full round cycles of the sample two-player room
bring the drawer back to player A. -/
theorem C5_witness :
    (cycleN (connCount wRoom) wRoom "pear").drawingPlayerId =
      wRoom.drawingPlayerId :=
  C5_rotation_cyclic wRoom "pear" 0 rfl (by decide) (by decide) (by decide)
    (by decide) (by decide)

end SketchSquad
